import Mathlib

/-!
# sample-swagger-test: the REST server lifecycle

A shallow embedding of `restapi/api.go` (route registration, path translation,
the health handler, `Run`, `Shutdown`, `RunWithSigHandler`) together with the
properties of the specification that concern it.

Libraries outside the repository (the gin router, `net/http`, gin-contrib's
pprof, the Go `strings` package) are represented by what the source hands to
them: registrations are recorded in order, calls to the `http.Server` are
recorded in order, and every value such a call returns is a parameter.
-/

namespace Restapi

/-! ## Go's `strings.Replace` on rune lists -/

namespace Strings

/-- The number of replacements still allowed: `none` stands for Go's `n < 0`
(no limit), `some k` for `k` remaining replacements. -/
def budgetOf (n : Int) : Option Nat :=
  if n < 0 then none else some n.toNat

/-- True when no replacement is allowed any more. -/
def spent : Option Nat → Bool
  | some 0 => true
  | _ => false

/-- One replacement has been made. -/
def charge : Option Nat → Option Nat
  | some k => some (k - 1)
  | none => none

/-- The case `old = ""` of `strings.Replace`: the empty string matches at the
beginning of the string and after each rune. -/
def replaceEmpty (new : List Char) : Option Nat → List Char → List Char
  | b, [] => if spent b then [] else new
  | b, c :: cs => if spent b then c :: cs else new ++ c :: replaceEmpty new (charge b) cs

/-- The case `old ≠ ""` of `strings.Replace`: a left-to-right scan replacing
non-overlapping occurrences of `old`. The first argument counts the runes of a
matched occurrence that are still to be skipped. -/
def replaceScan (old new : List Char) : Nat → Option Nat → List Char → List Char
  | _, _, [] => []
  | skip + 1, b, _ :: cs => replaceScan old new skip b cs
  | 0, b, c :: cs =>
    if !spent b && old.isPrefixOf (c :: cs) then
      new ++ replaceScan old new (old.length - 1) (charge b) cs
    else
      c :: replaceScan old new 0 b cs

/-- Go's `strings.Replace(s, old, new, n)`: a copy of `s` with the first `n`
non-overlapping instances of `old` replaced by `new`; no limit when `n < 0`. -/
def Replace (s old new : String) (n : Int) : String :=
  if old = new ∨ n = 0 then s
  else if old.data = [] then ⟨replaceEmpty new.data (budgetOf n) s.data⟩
  else ⟨replaceScan old.data new.data 0 (budgetOf n) s.data⟩

end Strings

/-- The source's `ginizePath`:
`strings.Replace(strings.Replace(path, "{", ":", -1), "}", "", -1)`. -/
def ginizePath (path : String) : String :=
  Strings.Replace (Strings.Replace path "\x7b" ":" (-1)) "\x7d" "" (-1)

/-! ## Path patterns as the specification describes them -/

/-- A piece of a path pattern: literal text or a named placeholder. -/
inductive Segment where
  | lit (text : List Char)
  | param (name : List Char)
  deriving DecidableEq

/-- A character allowed in a placeholder name: an ASCII letter, a digit or an
underscore. -/
def isNameChar (c : Char) : Bool :=
  c.isAlphanum || c == Char.ofNat 95

/-- Literal text holds no brace; a placeholder name is non-empty and made of
name characters. -/
def Segment.WellFormed : Segment → Prop
  | .lit text => Char.ofNat 123 ∉ text ∧ Char.ofNat 125 ∉ text
  | .param name => name ≠ [] ∧ ∀ c ∈ name, isNameChar c = true

/-- The brace syntax of a segment: a placeholder is written `{name}`. -/
def Segment.braced : Segment → List Char
  | .lit text => text
  | .param name => Char.ofNat 123 :: name ++ [Char.ofNat 125]

/-- The router's syntax of a segment: a placeholder is written `:name`. -/
def Segment.colon : Segment → List Char
  | .lit text => text
  | .param name => Char.ofNat 58 :: name

/-- The pattern in brace syntax. -/
def bracedPattern (segs : List Segment) : String :=
  ⟨segs.flatMap Segment.braced⟩

/-- The pattern in the router's syntax. -/
def colonPattern (segs : List Segment) : String :=
  ⟨segs.flatMap Segment.colon⟩

/-- What `ginizePath` does to one rune: an opening brace becomes a colon, a
closing brace disappears, anything else stays. -/
def ginizeRune (c : Char) : List Char :=
  if c = Char.ofNat 123 then [Char.ofNat 58]
  else if c = Char.ofNat 125 then []
  else [c]

/-- Braces as the specification wants them: every opening brace is closed
before the next one opens, and no closing brace comes without an open one.
The flag tells whether a brace is open. -/
def bracesBalancedFrom : Bool → List Char → Bool
  | inside, [] => !inside
  | inside, c :: cs =>
    if c = Char.ofNat 123 then (if inside then false else bracesBalancedFrom true cs)
    else if c = Char.ofNat 125 then (if inside then bracesBalancedFrom false cs else false)
    else bracesBalancedFrom inside cs

/-- Balanced braces, from outside any brace. -/
def bracesBalanced (p : List Char) : Bool :=
  bracesBalancedFrom false p

/-! ## Data model -/

/-- Errors as far as the source tells them apart: `http.ErrServerClosed` and
every other error value. -/
inductive Err where
  | ErrServerClosed
  | other (msg : String)
  deriving DecidableEq

/-- Modelled from the spec: the declaration of `restapi.Config` is not among
the sources; the fields are the ones the specification lists (listen address,
plaintext flag, TLS certificate and key files, debug flag, auth-disabled flag,
well-known-disabled flag, token URL, optional tracer), under the names by
which `api.go` and `main.go` read them. -/
structure Config where
  Address : String
  InsecureHTTP : Bool
  TLSCertFile : String
  TLSKeyFile : String
  Debug : Bool
  AuthDisabled : Bool
  WellKnownDisabled : Bool
  TokenURL : String
  Tracer : Option String
  deriving DecidableEq

/-- The functions of type `func() bool` that the source passes to
`healthHandler`: only the method value `server.isHealthy`. -/
inductive HealthFunc where
  | serverIsHealthy
  deriving DecidableEq

/-- The handlers the source binds to routes. The business endpoint
(`user_api.GetUserByUserIDEndpoint` over the service) and the pprof handlers
are defined outside the sources and are bound by name only. -/
inductive Handler where
  | schemaDiscovery
  | swaggerJSON
  | health (healthFunc : HealthFunc)
  | getUserByUserID
  | pprof (method : String) (name : String)
  deriving DecidableEq

/-- Middleware installed with `Use`. -/
inductive Middleware where
  | recovery
  | logrusLogger
  | initSpan (tracer : String) (operation : String)
  deriving DecidableEq

/-- One registration handed to the router. -/
structure Route where
  method : String
  path : String
  handler : Handler
  deriving DecidableEq

/-- The source's `Routes`: the gin engine with the registrations issued to it,
in the order issued, and the router group of the business operation. A group
registers `relativePath` under its base path; for the paths of this program
(each starts with a slash and has no dot segment or trailing slash) gin joins
the two by concatenation, the root group having the empty base. -/
structure Routes where
  engineMiddleware : List Middleware
  routes : List Route
  getUserByUserIDBase : String
  getUserByUserIDMiddleware : List Middleware
  deriving DecidableEq

/-- A call of a method of the `http.Server`. -/
inductive HttpCall where
  | ListenAndServe
  | ListenAndServeTLS (certFile keyFile : String)
  | Shutdown
  deriving DecidableEq

/-- The `http.Server` value the source builds, with the calls the source has
made on it so far. Timeouts are in seconds. -/
structure HttpServer where
  Addr : String
  ReadTimeout : Nat
  WriteTimeout : Nat
  calls : List HttpCall
  deriving DecidableEq

/-- The `Service` interface as far as the lifecycle uses it: the health probe,
read in the service's own state `ω` at the time of the call. The business
operation is bound to its route by name only. -/
structure Service (ω : Type) where
  Healthy : ω → Bool

/-- The source's `Server`. -/
structure Server (ω : Type) where
  Routes : Routes
  config : Config
  server : HttpServer
  service : Service ω
  healthy : Bool
  serviceHealthyFn : ω → Bool
  authDisabled : Bool
  Title : String
  Version : String

/-- The body of a response of the operational endpoints. The embedded
document `SwaggerJSON` is declared outside the sources; its body is named, not
spelled out. -/
inductive Body where
  | health (health : Bool)
  | discovery (schemaURL schemaType uiURL : String)
  | swaggerJSON
  deriving DecidableEq

/-- A status code and a body. -/
structure Response where
  status : Nat
  body : Body
  deriving DecidableEq

/-! ## Route registration -/

/-- Registration of `GET base ++ relativePath`, appended to the table. -/
def Routes.GET (r : Routes) (base relativePath : String) (h : Handler) : Routes :=
  { r with routes := r.routes ++ [⟨"GET", base ++ relativePath, h⟩] }

/-- Registration with an explicit method. -/
def Routes.Handle (r : Routes) (method base relativePath : String) (h : Handler) : Routes :=
  { r with routes := r.routes ++ [⟨method, base ++ relativePath, h⟩] }

/-- The source's `configureWellKnown`: the group `/.well-known` with
`/schema-discovery` and `/health`, then `/swagger.json` on the engine. -/
def Routes.configureWellKnown (r : Routes) (healthFunc : HealthFunc) : Routes :=
  let wellKnown := "/.well-known"
  let r := r.GET wellKnown "/schema-discovery" Handler.schemaDiscovery
  let r := r.GET wellKnown "/health" (Handler.health healthFunc)
  r.GET "" "/swagger.json" Handler.swaggerJSON

/-- The source's `healthHandler`: the closure calls `healthFunc` once per
request and answers 503 when the result is false, 200 otherwise, with the
result as body. -/
def healthHandler (healthFunc : Unit → Bool) : Response :=
  let health := healthFunc ()
  if !health then ⟨503, Body.health health⟩ else ⟨200, Body.health health⟩

/-- The source's `initializeRoutes`: a new engine with the recovery
middleware, and the business group at base `""` with the logger and, when a
tracer is given, the span middleware. -/
def initializeRoutes (_enableAuth : Bool) (_tokenURL : String) (tracer : Option String) :
    Routes :=
  { engineMiddleware := [Middleware.recovery]
    routes := []
    getUserByUserIDBase := ""
    getUserByUserIDMiddleware :=
      Middleware.logrusLogger ::
        (match tracer with
         | some t => [Middleware.initSpan t "get_user_by_user_id"]
         | none => []) }

/-- The call `pprof.Register(engine)` of gin-contrib: each endpoint of the
library, given as method and relative path, is registered in the group
`/debug/pprof`. The endpoint list belongs to the library and is a parameter. -/
def pprofRegister (endpoints : List (String × String)) (r : Routes) : Routes :=
  endpoints.foldl (fun acc e => acc.Handle e.1 "/debug/pprof" e.2 (Handler.pprof e.1 e.2)) r

/-- The source's `NewServer`. The process-wide settings it makes (gin mode,
log formatter) are not part of the server value. -/
def NewServer {ω : Type} (pprofEndpoints : List (String × String)) (svc : Service ω)
    (config : Config) : Server ω :=
  let routes := initializeRoutes (!config.AuthDisabled) config.TokenURL config.Tracer
  let routes := if config.Debug then pprofRegister pprofEndpoints routes else routes
  let httpServer : HttpServer :=
    { Addr := config.Address, ReadTimeout := 10, WriteTimeout := 10, calls := [] }
  let routes :=
    if !config.WellKnownDisabled then routes.configureWellKnown HealthFunc.serverIsHealthy
    else routes
  let routes := routes.GET "" "/healthz" (Handler.health HealthFunc.serverIsHealthy)
  { Routes := routes
    config := config
    server := httpServer
    service := svc
    healthy := false
    serviceHealthyFn := svc.Healthy
    authDisabled := config.AuthDisabled
    Title := "Swaggerの例"
    Version := "1.0.0" }

/-- The source's `isHealthy`: `s.healthy && s.serviceHealthyFn()`; the probe
is read in the service state `w` of the moment of the call. -/
def Server.isHealthy {ω : Type} (s : Server ω) (w : ω) : Bool :=
  s.healthy && s.serviceHealthyFn w

/-- The function a `HealthFunc` stands for, on the server as it is when the
request is handled. -/
def Server.healthFunc {ω : Type} (s : Server ω) (w : ω) : HealthFunc → Unit → Bool
  | HealthFunc.serverIsHealthy => fun _ => s.isHealthy w

/-- The response of a handler defined in `api.go`, on the server state `s` and
service state `w` of the moment the request is handled; `none` for the
handlers defined elsewhere. -/
def Server.serve {ω : Type} (s : Server ω) (w : ω) : Handler → Option Response
  | Handler.health f => some (healthHandler (s.healthFunc w f))
  | Handler.schemaDiscovery => some ⟨200, Body.discovery "/swagger.json" "swagger-2.0" ""⟩
  | Handler.swaggerJSON => some ⟨200, Body.swaggerJSON⟩
  | Handler.getUserByUserID => none
  | Handler.pprof _ _ => none

/-- The handler bound to a method and a path: the first registration with
both. -/
def Routes.lookup (r : Routes) (method path : String) : Option Handler :=
  (r.routes.find? (fun e => e.method == method && e.path == path)).map Route.handler

/-- The source's `configureRoutes`: the business route is registered on its
group under the translated path. -/
def Server.configureRoutes {ω : Type} (s : Server ω) : Server ω :=
  { s with
    Routes := s.Routes.GET s.Routes.getUserByUserIDBase
      (ginizePath "/user/\x7buser_id\x7d") Handler.getUserByUserID }

/-- The registrations `pprof.Register` makes. -/
def pprofRoutes (endpoints : List (String × String)) : List Route :=
  endpoints.map (fun e => ⟨e.1, "/debug/pprof" ++ e.2, Handler.pprof e.1 e.2⟩)

/-- The registrations of `configureWellKnown`. -/
def wellKnownRoutes : List Route :=
  [⟨"GET", "/.well-known/schema-discovery", Handler.schemaDiscovery⟩,
   ⟨"GET", "/.well-known/health", Handler.health HealthFunc.serverIsHealthy⟩,
   ⟨"GET", "/swagger.json", Handler.swaggerJSON⟩]

/-- The configuration `main.go` builds: debug mode, plain HTTP on
`localhost:8080`, every other field at its zero value. -/
def apiConfig : Config :=
  { Address := "localhost:8080"
    InsecureHTTP := true
    TLSCertFile := ""
    TLSKeyFile := ""
    Debug := true
    AuthDisabled := false
    WellKnownDisabled := false
    TokenURL := ""
    Tracer := none }

/-- The service of `service.go`: its `Healthy` returns true. -/
def Svc : Service Unit :=
  { Healthy := fun _ => true }

/-! ## Lifecycle

`Run` and `Shutdown` are sequences of statements; each statement is a step on
the server value. The blocking call into `net/http` is a step that records the
call; what it returns is a parameter of `Run`. -/

/-- A statement of `Run` or `Shutdown`. -/
inductive Step where
  | configureRoutes
  | setHealthy (b : Bool)
  | listen
  | httpShutdown
  deriving DecidableEq

/-- The call `Run` makes on the `http.Server`: `ListenAndServe` when
`InsecureHTTP` is set, `ListenAndServeTLS` with the configured files
otherwise. -/
def listenCall (config : Config) : HttpCall :=
  if config.InsecureHTTP then HttpCall.ListenAndServe
  else HttpCall.ListenAndServeTLS config.TLSCertFile config.TLSKeyFile

/-- The effect of one statement on the server. -/
def Step.exec {ω : Type} (s : Server ω) : Step → Server ω
  | Step.configureRoutes => s.configureRoutes
  | Step.setHealthy b => { s with healthy := b }
  | Step.listen =>
    { s with server := { s.server with calls := s.server.calls ++ [listenCall s.config] } }
  | Step.httpShutdown =>
    { s with server := { s.server with calls := s.server.calls ++ [HttpCall.Shutdown] } }

/-- The statements of a list, executed in order. -/
def execAll {ω : Type} (s : Server ω) (steps : List Step) : Server ω :=
  steps.foldl Step.exec s

/-- The statements of the source's `Run`, in order: route configuration, the
write `s.healthy = true`, the blocking listen call. -/
def runSteps : List Step :=
  [Step.configureRoutes, Step.setHealthy true, Step.listen]

/-- The statements of the source's `Shutdown`, in order: the write
`s.healthy = false`, then `s.server.Shutdown(context.Background())`. -/
def shutdownSteps : List Step :=
  [Step.setHealthy false, Step.httpShutdown]

/-- The source's `Run`; `serveErr` is what the listen call returns. -/
def Server.Run {ω : Type} (s : Server ω) (serveErr : Option Err) : Server ω × Option Err :=
  (execAll s runSteps, serveErr)

/-- The source's `Shutdown`; `closeErr` is what `http.Server.Shutdown`
returns. -/
def Server.Shutdown {ω : Type} (s : Server ω) (closeErr : Option Err) :
    Server ω × Option Err :=
  (execAll s shutdownSteps, closeErr)

/-- The source's `ConfigureRoutes`. -/
def Server.ConfigureRoutes {ω : Type} (s : Server ω) : Server ω :=
  s.configureRoutes

/-- The loop of `RunWithSigHandler` over the shutdown functions: each is
called on the caller's state `σ` left by the previous one; the first error
ends the loop and is returned. -/
def runShutdownFuncs {σ : Type} : List (σ → Option Err × σ) → σ → Option Err × σ
  | [], w => (none, w)
  | fn :: rest, w =>
    match fn w with
    | (some err, w') => (some err, w')
    | (none, w') => runShutdownFuncs rest w'

/-- When the signal goroutine of `RunWithSigHandler` gets to call `Shutdown`,
relative to the statements of `Run`. -/
inductive SigArrival where
  | never
  | beforeRun
  | whileServing
  | afterRun
  deriving DecidableEq

/-- The goroutine's `s.Shutdown()` at the point `now`, if that is when the
signal arrives; the value `Shutdown` returns is dropped, as in the source. -/
def sigShutdown {ω : Type} (sig now : SigArrival) (closeErr : Option Err) (s : Server ω) :
    Server ω :=
  if sig = now then (s.Shutdown closeErr).1 else s

/-- The source's `RunWithSigHandler`: `Run`, with the goroutine's `Shutdown`
interleaved where the signal arrives; an error of `Run` other than
`http.ErrServerClosed` is returned at once; otherwise the shutdown functions
run in order until the first error. The result is the server once the
goroutine's call, if any, is done, the caller's state and the returned
error. -/
def Server.RunWithSigHandler {ω σ : Type} (s : Server ω) (sig : SigArrival)
    (serveErr closeErr : Option Err) (shutdown : List (σ → Option Err × σ)) (w : σ) :
    Server ω × σ × Option Err :=
  let s := sigShutdown sig SigArrival.beforeRun closeErr s
  let (s, err) := s.Run serveErr
  let s := sigShutdown sig SigArrival.whileServing closeErr s
  let s := sigShutdown sig SigArrival.afterRun closeErr s
  match err with
  | some e =>
    if e ≠ Err.ErrServerClosed then (s, w, some e)
    else
      let (r, w') := runShutdownFuncs shutdown w
      (s, w', r)
  | none =>
    let (r, w') := runShutdownFuncs shutdown w
    (s, w', r)

/-- A call of one of the public operations, with the values the libraries
return to it. -/
inductive Op (σ : Type) where
  | ConfigureRoutes
  | Run (serveErr : Option Err)
  | RunWithSigHandler (sig : SigArrival) (serveErr closeErr : Option Err)
      (shutdown : List (σ → Option Err × σ))
  | Shutdown (closeErr : Option Err)

/-- The effect of a call on the server and on the caller's state. -/
def Op.apply {ω σ : Type} : Op σ → Server ω × σ → Server ω × σ
  | Op.ConfigureRoutes, (s, w) => (s.ConfigureRoutes, w)
  | Op.Run serveErr, (s, w) => ((s.Run serveErr).1, w)
  | Op.RunWithSigHandler sig serveErr closeErr shutdown, (s, w) =>
    let r := s.RunWithSigHandler sig serveErr closeErr shutdown w
    (r.1, r.2.1)
  | Op.Shutdown closeErr, (s, w) => ((s.Shutdown closeErr).1, w)

/-- A sequence of calls, applied in order. -/
def applyOps {ω σ : Type} (ops : List (Op σ)) (st : Server ω × σ) : Server ω × σ :=
  ops.foldl (fun acc op => op.apply acc) st

/-- True for the calls that reach `configureRoutes`. -/
def Op.configures {σ : Type} : Op σ → Bool
  | Op.ConfigureRoutes => true
  | Op.Run _ => true
  | Op.RunWithSigHandler _ _ _ _ => true
  | Op.Shutdown _ => false

/-- The business binding as `configureRoutes` registers it. -/
def businessRoute : Route :=
  ⟨"GET", "" ++ ginizePath "/user/\x7buser_id\x7d", Handler.getUserByUserID⟩

/-- Number of registrations of the business binding's method and path in a
table. -/
def businessCount (r : Routes) : Nat :=
  (r.routes.filter
    (fun e => e.method == businessRoute.method && e.path == businessRoute.path)).length

/-- A call in a history of `Run` and `Shutdown` calls. -/
inductive Call where
  | Run
  | Shutdown
  deriving DecidableEq

/-- The statements of a call. -/
def Call.steps : Call → List Step
  | Call.Run => runSteps
  | Call.Shutdown => shutdownSteps

/-- The statements of a history of calls, in the order executed. -/
def timeline (calls : List Call) : List Step :=
  calls.flatMap Call.steps

/-- The value of the most recent write to the healthy flag among the
statements, if there is one. -/
def lastWrite : List Step → Option Bool
  | [] => none
  | Step.setHealthy b :: rest => (lastWrite rest).orElse (fun _ => some b)
  | _ :: rest => lastWrite rest

/-- Number of writes of the value `b` to the healthy flag among the
statements. -/
def writeCount (b : Bool) (steps : List Step) : Nat :=
  (steps.filter (fun st => st == Step.setHealthy b)).length

/-- The server state in which `healthHandler` answers a request handled after
the first `k` statements of `steps` have executed. -/
def stateAt {ω : Type} (s : Server ω) (steps : List Step) (k : Nat) : Server ω :=
  execAll s (steps.take k)

/-- The caller's state after the first `k` shutdown functions have run in
order. -/
def stateAfter {σ : Type} (fns : List (σ → Option Err × σ)) (w : σ) (k : Nat) : σ :=
  (fns.take k).foldl (fun acc fn => (fn acc).2) w

/-- What the `i`-th shutdown function returns when it is called after its
predecessors. -/
def errAt {σ : Type} (fns : List (σ → Option Err × σ)) (w : σ) (i : Nat) : Option Err :=
  match fns.get? i with
  | some fn => (fn (stateAfter fns w i)).1
  | none => none

/-- A shutdown function that appends its number to a log of calls and returns
the given result. -/
def logged (i : Nat) (result : Option Err) : List Nat → Option Err × List Nat :=
  fun log => (result, log ++ [i])

/-- The server after `n` calls of `Shutdown`, for `n ≥ 1`: the flag is false
and `n` close requests have been added to the calls on the `http.Server`. -/
def afterShutdowns {ω : Type} (s : Server ω) (n : Nat) : Server ω :=
  { s with
    healthy := false
    server := { s.server with calls := s.server.calls ++ List.replicate n HttpCall.Shutdown } }

/-- The calls of `Shutdown` one after the other, each with the value the
`http.Server` returns to it: the server at the end and the values the calls
returned, in order. -/
def shutdownAll {ω : Type} (s : Server ω) : List (Option Err) → Server ω × List (Option Err)
  | [] => (s, [])
  | closeErr :: rest =>
    let r := s.Shutdown closeErr
    let t := shutdownAll r.1 rest
    (t.1, r.2 :: t.2)

/-- The part of a `net/http` server that its `Shutdown` acts on, as the
package documents it: whether a listener is open, whether the server is in
shutdown, and how many times a listener has been closed. -/
structure HttpState where
  listenerOpen : Bool
  inShutdown : Bool
  listenerCloses : Nat
  deriving DecidableEq

/-- The method `http.Server.Shutdown` of `net/http` on that state, after the
package's documentation: the server is marked as in shutdown and the open
listener, if there is one, is closed; a listener already closed is not closed
again. -/
def HttpState.Shutdown (x : HttpState) : HttpState :=
  { listenerOpen := false
    inShutdown := true
    listenerCloses := x.listenerCloses + (if x.listenerOpen then 1 else 0) }

/-- The library state after `n` calls of `http.Server.Shutdown`. -/
def HttpState.shutdownTimes : Nat → HttpState → HttpState
  | 0, x => x
  | n + 1, x => HttpState.shutdownTimes n x.Shutdown

/-- Number of `Shutdown` calls the source has passed to the `http.Server`
between two states of it. -/
def closeRequests (before after : HttpServer) : Nat :=
  (after.calls.drop before.calls.length).count HttpCall.Shutdown

/-- The library state once the source has gone from server `s` to server `t`
by `Shutdown` calls, when the library was in state `x` at `s`. -/
def httpStateAfter {ω : Type} (x : HttpState) (s t : Server ω) : HttpState :=
  HttpState.shutdownTimes (closeRequests s.server t.server) x

/-- The shutdown functions `0, …, n - 1`, each of which logs its number and
succeeds. -/
def loggedAll (n : Nat) : List (List Nat → Option Err × List Nat) :=
  (List.range n).map (fun i => logged i none)

/-! # Theorems -/

/-! ## Path translation -/

theorem replaceScan_single (a : Char) (new s : List Char) :
    Strings.replaceScan [a] new 0 none s = s.flatMap (fun c => if c = a then new else [c]) := by
  induction s with
  | nil => rfl
  | cons c cs ih =>
    by_cases h : c = a
    · subst h
      simp [Strings.replaceScan, Strings.spent, Strings.charge, List.isPrefixOf, ih]
    · have h' : ¬ a = c := fun e => h e.symm
      simp [Strings.replaceScan, Strings.spent, List.isPrefixOf, ih, h, h']

theorem ginizePath_data (path : String) :
    (ginizePath path).data = path.data.flatMap ginizeRune := by
  have h1 : Strings.Replace path "\x7b" ":" (-1)
      = ⟨path.data.flatMap (fun c => if c = Char.ofNat 123 then [Char.ofNat 58] else [c])⟩ := by
    have e : ("\x7b" : String) ≠ ":" := by decide
    simp only [Strings.Replace, e, false_or]
    rw [if_neg (by decide), if_neg (by decide)]
    have : Strings.budgetOf (-1) = none := by decide
    rw [this]
    exact congrArg String.mk (replaceScan_single _ _ _)
  have h2 : ∀ t : String, Strings.Replace t "\x7d" "" (-1)
      = ⟨t.data.flatMap (fun c => if c = Char.ofNat 125 then [] else [c])⟩ := by
    intro t
    have e : ("\x7d" : String) ≠ "" := by decide
    simp only [Strings.Replace, e, false_or]
    rw [if_neg (by decide), if_neg (by decide)]
    have : Strings.budgetOf (-1) = none := by decide
    rw [this]
    exact congrArg String.mk (replaceScan_single _ _ _)
  unfold ginizePath
  rw [h1, h2]
  simp only [List.flatMap_assoc]
  congr 1
  funext c
  unfold ginizeRune
  by_cases hc : c = Char.ofNat 123
  · subst hc; decide
  · simp [hc]

theorem isNameChar_not_brace (c : Char) (h : isNameChar c = true) :
    c ≠ Char.ofNat 123 ∧ c ≠ Char.ofNat 125 := by
  constructor
  · intro e; subst e; revert h; decide
  · intro e; subst e; revert h; decide

theorem flatMap_ginizeRune_plain (text : List Char)
    (h1 : Char.ofNat 123 ∉ text) (h2 : Char.ofNat 125 ∉ text) :
    text.flatMap ginizeRune = text := by
  induction text with
  | nil => rfl
  | cons c cs ih =>
    have hc1 : c ≠ Char.ofNat 123 := fun e => h1 (by simp [e])
    have hc2 : c ≠ Char.ofNat 125 := fun e => h2 (by simp [e])
    have t1 : Char.ofNat 123 ∉ cs := fun m => h1 (List.mem_cons_of_mem _ m)
    have t2 : Char.ofNat 125 ∉ cs := fun m => h2 (List.mem_cons_of_mem _ m)
    simp [List.flatMap_cons, ginizeRune, hc1, hc2, ih t1 t2]

theorem flatMap_ginizeRune_segment (seg : Segment) (h : seg.WellFormed) :
    seg.braced.flatMap ginizeRune = seg.colon := by
  cases seg with
  | lit text => exact flatMap_ginizeRune_plain text h.1 h.2
  | param name =>
    have n1 : Char.ofNat 123 ∉ name := fun m => (isNameChar_not_brace _ (h.2 _ m)).1 rfl
    have n2 : Char.ofNat 125 ∉ name := fun m => (isNameChar_not_brace _ (h.2 _ m)).2 rfl
    have e1 : ginizeRune (Char.ofNat 123) = [Char.ofNat 58] := by decide
    have e2 : ginizeRune (Char.ofNat 125) = [] := by decide
    simp [Segment.braced, Segment.colon, List.flatMap_cons, List.flatMap_append, e1, e2,
      flatMap_ginizeRune_plain name n1 n2]

theorem flatMap_ginizeRune_segments (segs : List Segment) (h : ∀ seg ∈ segs, seg.WellFormed) :
    (segs.flatMap Segment.braced).flatMap ginizeRune = segs.flatMap Segment.colon := by
  induction segs with
  | nil => rfl
  | cons seg rest ih =>
    have hs := flatMap_ginizeRune_segment seg (h seg (List.mem_cons_self _ _))
    have hr := ih (fun x m => h x (List.mem_cons_of_mem _ m))
    simp [List.flatMap_cons, List.flatMap_append, hs, hr]

theorem ginizeRune_no_brace (c d : Char) (h : d ∈ ginizeRune c) :
    d ≠ Char.ofNat 123 ∧ d ≠ Char.ofNat 125 := by
  unfold ginizeRune at h
  by_cases h1 : c = Char.ofNat 123
  · simp [h1] at h; subst h; decide
  · by_cases h2 : c = Char.ofNat 125
    · simp [h1, h2] at h
    · simp [h1, h2] at h; subst h; exact ⟨h1, h2⟩

/-- C6: on a pattern made of brace-free literal text and placeholders
`{name}` with non-empty names of ASCII letters, digits and underscores,
`ginizePath` returns the same pattern with every `{name}` written `:name`,
text and names untouched and in order; `/user/{user_id}` becomes
`/user/:user_id`; a pattern without placeholders is returned unchanged. -/
theorem ginizePath_placeholders (segs : List Segment) (h : ∀ seg ∈ segs, seg.WellFormed) :
    ginizePath (bracedPattern segs) = colonPattern segs ∧
    ginizePath "/user/\x7buser_id\x7d" = "/user/:user_id" ∧
    ((∀ seg ∈ segs, ∃ text, seg = Segment.lit text) →
      ginizePath (bracedPattern segs) = bracedPattern segs) := by
  have key : ginizePath (bracedPattern segs) = colonPattern segs := by
    apply String.ext
    rw [ginizePath_data]
    exact flatMap_ginizeRune_segments segs h
  refine ⟨key, by decide, ?_⟩
  intro hl
  rw [key]
  unfold colonPattern bracedPattern
  congr 1
  apply List.flatMap_congr
  intro seg m
  obtain ⟨text, e⟩ := hl seg m
  subst e
  rfl

/-- The pattern of the business route, `/user/` followed by the placeholder
`user_id`, translates to `/user/:user_id`. -/
theorem ginizePath_placeholders_witness :
    ginizePath (bracedPattern [Segment.lit "/user/".data, Segment.param "user_id".data])
      = colonPattern [Segment.lit "/user/".data, Segment.param "user_id".data] :=
  (ginizePath_placeholders [Segment.lit "/user/".data, Segment.param "user_id".data]
    (by
      intro seg m
      simp only [List.mem_cons, List.mem_singleton, List.not_mem_nil, or_false] at m
      rcases m with e | e
      · subst e; exact ⟨by decide, by decide⟩
      · subst e; exact ⟨by decide, by decide⟩)).1

/-- C7 (as the code has it): `ginizePath` reports no error for any pattern,
balanced or not: it returns the pattern with every opening brace replaced by
a colon and every closing brace removed, so the result holds no brace, and
registration under the translated path appends a route with that path. -/
theorem ginizePath_total (path : String) (r : Routes) (h : Handler) :
    (ginizePath path).data = path.data.flatMap ginizeRune ∧
    Char.ofNat 123 ∉ (ginizePath path).data ∧
    Char.ofNat 125 ∉ (ginizePath path).data ∧
    (r.GET "" (ginizePath path) h).routes = r.routes ++ [⟨"GET", ginizePath path, h⟩] := by
  refine ⟨ginizePath_data path, ?_, ?_, ?_⟩
  · rw [ginizePath_data]
    intro m
    obtain ⟨c, _, hc⟩ := List.mem_flatMap.mp m
    exact (ginizeRune_no_brace c _ hc).1 rfl
  · rw [ginizePath_data]
    intro m
    obtain ⟨c, _, hc⟩ := List.mem_flatMap.mp m
    exact (ginizeRune_no_brace c _ hc).2 rfl
  · simp [Routes.GET]

/-- C7 fails as stated: for patterns with an unclosed brace, a stray closing
brace and nested braces, `ginizePath` returns a translated path, and
registering under it adds a route. -/
theorem ginizePath_unbalanced_translated :
    bracesBalanced "/user/\x7buser_id".data = false ∧
    ginizePath "/user/\x7buser_id" = "/user/:user_id" ∧
    bracesBalanced "/user/user_id\x7d".data = false ∧
    ginizePath "/user/user_id\x7d" = "/user/user_id" ∧
    bracesBalanced "/user/\x7b\x7bid\x7d\x7d".data = false ∧
    ginizePath "/user/\x7b\x7bid\x7d\x7d" = "/user/::id" ∧
    ((initializeRoutes true "" none).GET "" (ginizePath "/user/\x7buser_id")
        Handler.getUserByUserID).routes
      = [⟨"GET", "/user/:user_id", Handler.getUserByUserID⟩] := by
  decide

/-- C2: the health handler over `server.isHealthy` answers 200 with body
`health: true` exactly when the healthy flag is set and the probe, read at
the request, returns true, and 503 with body `health: false` otherwise. -/
theorem healthHandler_isHealthy {ω : Type} (s : Server ω) (w : ω) :
    s.serve w (Handler.health HealthFunc.serverIsHealthy)
      = some (healthHandler (fun _ => s.isHealthy w)) ∧
    healthHandler (fun _ => s.isHealthy w)
      = (if s.healthy = true ∧ s.serviceHealthyFn w = true then ⟨200, Body.health true⟩
         else ⟨503, Body.health false⟩) := by
  refine ⟨rfl, ?_⟩
  unfold healthHandler Server.isHealthy
  cases s.healthy <;> cases s.serviceHealthyFn w <;> simp

/-! ## Routes registered by `NewServer` -/

theorem pprofRegister_routes (endpoints : List (String × String)) (r : Routes) :
    (pprofRegister endpoints r).routes
      = r.routes ++ endpoints.map
          (fun e => ⟨e.1, "/debug/pprof" ++ e.2, Handler.pprof e.1 e.2⟩) := by
  unfold pprofRegister
  induction endpoints generalizing r with
  | nil => simp
  | cons e rest ih =>
    simp only [List.foldl_cons, List.map_cons]
    rw [ih]
    simp [Routes.Handle]

theorem pprofRegister_base (endpoints : List (String × String)) (r : Routes) :
    (pprofRegister endpoints r).getUserByUserIDBase = r.getUserByUserIDBase := by
  unfold pprofRegister
  induction endpoints generalizing r with
  | nil => rfl
  | cons e rest ih =>
    simp only [List.foldl_cons]
    rw [ih]
    rfl

theorem routes_of_NewServer {ω : Type} (pprofEndpoints : List (String × String))
    (svc : Service ω) (config : Config) :
    (NewServer pprofEndpoints svc config).Routes.routes
      = (if config.Debug then pprofRoutes pprofEndpoints else [])
        ++ (if config.WellKnownDisabled then [] else wellKnownRoutes)
        ++ [⟨"GET", "/healthz", Handler.health HealthFunc.serverIsHealthy⟩] := by
  unfold NewServer
  cases hd : config.Debug <;> cases hw : config.WellKnownDisabled <;>
    simp [Routes.GET, Routes.configureWellKnown, initializeRoutes, pprofRegister_routes,
      pprofRoutes, wellKnownRoutes]

theorem isPrefixOf_append_self (xs ys : List Char) : xs.isPrefixOf (xs ++ ys) = true := by
  induction xs with
  | nil => simp [List.isPrefixOf]
  | cons x rest ih => simp [List.isPrefixOf, ih]

theorem pprof_path_ne (rel : String) (p : String) (h : ("/debug/pprof".data.isPrefixOf p.data) = false) :
    ("/debug/pprof" ++ rel == p) = false := by
  rw [beq_eq_false_iff_ne]
  intro e
  have e' := congrArg String.data e
  rw [String.data_append] at e'
  rw [← e'] at h
  have : ("/debug/pprof".data.isPrefixOf ("/debug/pprof".data ++ rel.data)) = true :=
    isPrefixOf_append_self _ _
  rw [this] at h
  exact Bool.noConfusion h

theorem find_pprofRoutes (endpoints : List (String × String)) (method p : String)
    (h : ("/debug/pprof".data.isPrefixOf p.data) = false) :
    (pprofRoutes endpoints).find? (fun e => e.method == method && e.path == p) = none := by
  rw [List.find?_eq_none]
  intro e m
  unfold pprofRoutes at m
  obtain ⟨x, _, rfl⟩ := List.mem_map.mp m
  simp [pprof_path_ne x.2 p h]

theorem NewServer_lookup {ω : Type} (pprofEndpoints : List (String × String))
    (svc : Service ω) (config : Config) (method p : String)
    (h : ("/debug/pprof".data.isPrefixOf p.data) = false) :
    (NewServer pprofEndpoints svc config).Routes.lookup method p
      = (((if config.WellKnownDisabled then [] else wellKnownRoutes)
          ++ [Route.mk "GET" "/healthz" (Handler.health HealthFunc.serverIsHealthy)]).find?
            (fun e => e.method == method && e.path == p)).map Route.handler := by
  unfold Routes.lookup
  rw [routes_of_NewServer, List.append_assoc, List.find?_append]
  cases config.Debug
  · simp
  · simp only [if_true, find_pprofRoutes pprofEndpoints method p h, Option.none_or]

/-- C8: whatever the configuration, `NewServer` binds `GET /healthz` to the
health handler over `server.isHealthy`; `GET /.well-known/schema-discovery`,
`GET /.well-known/health` and `GET /swagger.json` are bound exactly when
`WellKnownDisabled` is false; `/.well-known/health` then has the handler of
`/healthz`, which answers by `healthHandler` over `isHealthy` in every server
state. -/
theorem NewServer_routes {ω : Type} (pprofEndpoints : List (String × String))
    (svc : Service ω) (config : Config) :
    (NewServer pprofEndpoints svc config).Routes.lookup "GET" "/healthz"
      = some (Handler.health HealthFunc.serverIsHealthy) ∧
    (NewServer pprofEndpoints svc config).Routes.lookup "GET" "/.well-known/schema-discovery"
      = (if config.WellKnownDisabled then none else some Handler.schemaDiscovery) ∧
    (NewServer pprofEndpoints svc config).Routes.lookup "GET" "/.well-known/health"
      = (if config.WellKnownDisabled then none
         else (NewServer pprofEndpoints svc config).Routes.lookup "GET" "/healthz") ∧
    (NewServer pprofEndpoints svc config).Routes.lookup "GET" "/swagger.json"
      = (if config.WellKnownDisabled then none else some Handler.swaggerJSON) ∧
    (∀ (s : Server ω) (w : ω),
      s.serve w (Handler.health HealthFunc.serverIsHealthy)
        = some (healthHandler (fun _ => s.isHealthy w))) := by
  rw [NewServer_lookup pprofEndpoints svc config "GET" "/healthz" (by decide),
    NewServer_lookup pprofEndpoints svc config "GET" "/.well-known/schema-discovery" (by decide),
    NewServer_lookup pprofEndpoints svc config "GET" "/.well-known/health" (by decide),
    NewServer_lookup pprofEndpoints svc config "GET" "/swagger.json" (by decide)]
  refine ⟨?_, ?_, ?_, ?_, fun s w => rfl⟩ <;>
    cases config.WellKnownDisabled <;> decide

/-! ## The healthy flag along a history of statements -/

theorem Step.exec_serviceHealthyFn {ω : Type} (s : Server ω) (st : Step) :
    (st.exec s).serviceHealthyFn = s.serviceHealthyFn := by
  cases st <;> rfl

theorem execAll_serviceHealthyFn {ω : Type} (s : Server ω) (steps : List Step) :
    (execAll s steps).serviceHealthyFn = s.serviceHealthyFn := by
  unfold execAll
  induction steps generalizing s with
  | nil => rfl
  | cons st rest ih =>
    simp only [List.foldl_cons]
    rw [ih, Step.exec_serviceHealthyFn]

theorem execAll_healthy {ω : Type} (s : Server ω) (steps : List Step) :
    (execAll s steps).healthy = (lastWrite steps).getD s.healthy := by
  unfold execAll
  induction steps generalizing s with
  | nil => rfl
  | cons st rest ih =>
    simp only [List.foldl_cons]
    rw [ih]
    cases st with
    | setHealthy b =>
      simp only [lastWrite]
      cases lastWrite rest <;> rfl
    | configureRoutes => rfl
    | listen => rfl
    | httpShutdown => rfl

theorem writeCount_append (b : Bool) (xs ys : List Step) :
    writeCount b (xs ++ ys) = writeCount b xs + writeCount b ys := by
  simp [writeCount, List.filter_append]

theorem writeCount_timeline (calls : List Call) :
    writeCount true (timeline calls) = calls.count Call.Run ∧
    writeCount false (timeline calls) = calls.count Call.Shutdown := by
  induction calls with
  | nil => exact ⟨rfl, rfl⟩
  | cons c rest ih =>
    have e : timeline (c :: rest) = c.steps ++ timeline rest := by
      simp [timeline, List.flatMap_cons]
    rw [e, writeCount_append, writeCount_append, ih.1, ih.2]
    cases c
    · have h1 : writeCount true Call.Run.steps = 1 := by decide
      have h2 : writeCount false Call.Run.steps = 0 := by decide
      rw [h1, h2]
      simp [List.count_cons, Nat.add_comm]
    · have h1 : writeCount true Call.Shutdown.steps = 0 := by decide
      have h2 : writeCount false Call.Shutdown.steps = 1 := by decide
      rw [h1, h2]
      simp [List.count_cons, Nat.add_comm]

/-- C1 (as the code has it): `isHealthy` is false directly after `NewServer`;
at every point of a history of `Run` and `Shutdown` calls it is true exactly
when the most recent write to the healthy flag is the one of a `Run` and the
probe returns true, so it is false whenever the most recent write is the one
of a `Shutdown`; the flag is written true once per `Run` call and false once
per `Shutdown` call. -/
theorem isHealthy_history {ω : Type} (pprofEndpoints : List (String × String))
    (svc : Service ω) (config : Config) (calls : List Call) (k : Nat) (w : ω) :
    (NewServer pprofEndpoints svc config).isHealthy w = false ∧
    (stateAt (NewServer pprofEndpoints svc config) (timeline calls) k).isHealthy w
      = (decide (lastWrite ((timeline calls).take k) = some true) && svc.Healthy w) ∧
    writeCount true (timeline calls) = calls.count Call.Run ∧
    writeCount false (timeline calls) = calls.count Call.Shutdown := by
  refine ⟨rfl, ?_, (writeCount_timeline calls).1, (writeCount_timeline calls).2⟩
  unfold stateAt Server.isHealthy
  rw [execAll_healthy, execAll_serviceHealthyFn]
  have h0 : (NewServer pprofEndpoints svc config).healthy = false := rfl
  have h1 : (NewServer pprofEndpoints svc config).serviceHealthyFn = svc.Healthy := rfl
  rw [h0, h1]
  cases lastWrite ((timeline calls).take k) with
  | none => simp
  | some b => cases b <;> simp

/-- C1 fails as stated: with the service of `service.go` and the
configuration of `main.go`, after `Shutdown` followed by `Run` the server
reports healthy although a `Shutdown` has begun; and two `Shutdown` calls
write the flag false twice. -/
theorem isHealthy_after_shutdown_then_run :
    (stateAt (NewServer [] Svc apiConfig) (timeline [Call.Shutdown, Call.Run]) 5).isHealthy ()
      = true ∧
    (((NewServer [] Svc apiConfig).Shutdown none).1.Run (some Err.ErrServerClosed)).1.isHealthy ()
      = true ∧
    writeCount false (timeline [Call.Shutdown, Call.Shutdown]) = 2 := by
  refine ⟨by rfl, by rfl, by decide⟩

theorem lastWrite_ne_true (steps : List Step) (h : Step.setHealthy true ∉ steps) :
    lastWrite steps ≠ some true := by
  induction steps with
  | nil => simp [lastWrite]
  | cons st rest ih =>
    have hr : Step.setHealthy true ∉ rest := fun m => h (List.mem_cons_of_mem _ m)
    have hst : st ≠ Step.setHealthy true := fun e => h (by simp [e])
    have ih' := ih hr
    cases st with
    | setHealthy b =>
      cases b with
      | true => exact absurd rfl hst
      | false =>
        simp only [lastWrite]
        cases hl : lastWrite rest with
        | none => simp [Option.orElse]
        | some v =>
          cases v with
          | true => exact absurd hl ih'
          | false => simp [Option.orElse]
    | configureRoutes => simpa [lastWrite] using ih'
    | listen => simpa [lastWrite] using ih'
    | httpShutdown => simpa [lastWrite] using ih'

theorem healthHandler_unhealthy {ω : Type} (s : Server ω) (w : ω) (h : s.healthy = false) :
    s.serve w (Handler.health HealthFunc.serverIsHealthy)
      = some ⟨503, Body.health false⟩ := by
  show some (healthHandler (fun _ => s.isHealthy w)) = _
  simp [healthHandler, Server.isHealthy, h]

/-- C3 (as the code has it): `Shutdown` writes the healthy flag false as its
first statement, before the close of the listener is asked for, and the flag
is false whatever the close returns; a health check handled at any point from
that write on, while the listener is closing or later, gets 503 as long as no
`Run` writes the flag true afterwards. -/
theorem shutdown_health_unavailable {ω : Type} (s : Server ω) (closeErr : Option Err)
    (later : List Step) (k : Nat) (w : ω) (hk : 1 ≤ k)
    (hlater : Step.setHealthy true ∉ later) :
    (stateAt s shutdownSteps 1).healthy = false ∧
    (stateAt s shutdownSteps 1).server.calls = s.server.calls ∧
    (stateAt s shutdownSteps 2).server.calls = s.server.calls ++ [HttpCall.Shutdown] ∧
    (s.Shutdown closeErr).1.healthy = false ∧
    (s.Shutdown closeErr).2 = closeErr ∧
    (stateAt s (shutdownSteps ++ later) k).serve w (Handler.health HealthFunc.serverIsHealthy)
      = some ⟨503, Body.health false⟩ := by
  refine ⟨rfl, rfl, rfl, rfl, rfl, ?_⟩
  apply healthHandler_unhealthy
  unfold stateAt
  rw [execAll_healthy]
  obtain ⟨j, rfl⟩ : ∃ j, k = j + 1 := ⟨k - 1, by omega⟩
  have hrest : Step.setHealthy true ∉ (Step.httpShutdown :: later).take j := by
    intro m
    have m' := List.mem_of_mem_take m
    simp only [List.mem_cons] at m'
    rcases m' with e | m'
    · exact Step.noConfusion e
    · exact hlater m'
  have hl := lastWrite_ne_true _ hrest
  have e : (shutdownSteps ++ later).take (j + 1)
      = Step.setHealthy false :: (Step.httpShutdown :: later).take j := rfl
  rw [e]
  simp only [lastWrite]
  cases hv : lastWrite ((Step.httpShutdown :: later).take j) with
  | none => rfl
  | some v =>
    cases v with
    | true => exact absurd hv hl
    | false => rfl

/-- While the listener is closing after a `Run`, and after a later
`ConfigureRoutes`, the health check of the server of `main.go` gets 503. -/
theorem shutdown_health_unavailable_witness :
    1 ≤ 1 ∧ Step.setHealthy true ∉ [Step.configureRoutes] ∧
    (stateAt (execAll (NewServer [] Svc apiConfig) runSteps)
        (shutdownSteps ++ [Step.configureRoutes]) 1).serve ()
        (Handler.health HealthFunc.serverIsHealthy)
      = some ⟨503, Body.health false⟩ :=
  ⟨by decide, by decide,
    (shutdown_health_unavailable (execAll (NewServer [] Svc apiConfig) runSteps) none
      [Step.configureRoutes] 1 () (by decide) (by decide)).2.2.2.2.2⟩

/-- C3 fails as stated: a `Shutdown` that comes before the flag write of
`Run`, called directly or by the signal goroutine of `RunWithSigHandler`, is
followed by health checks that get 200. -/
theorem health_ok_after_shutdown :
    (stateAt (NewServer [] Svc apiConfig) (shutdownSteps ++ runSteps) 4).serve ()
        (Handler.health HealthFunc.serverIsHealthy)
      = some ⟨200, Body.health true⟩ ∧
    ((NewServer [] Svc apiConfig).RunWithSigHandler SigArrival.beforeRun
        (some Err.ErrServerClosed) none ([] : List (Unit → Option Err × Unit)) ()).1.serve ()
        (Handler.health HealthFunc.serverIsHealthy)
      = some ⟨200, Body.health true⟩ := by
  refine ⟨by rfl, by rfl⟩

/-! ## The shutdown functions of `RunWithSigHandler` -/

theorem stateAfter_cons_succ {σ : Type} (fn : σ → Option Err × σ)
    (rest : List (σ → Option Err × σ)) (w : σ) (k : Nat) :
    stateAfter (fn :: rest) w (k + 1) = stateAfter rest (fn w).2 k := rfl

theorem errAt_cons_zero {σ : Type} (fn : σ → Option Err × σ)
    (rest : List (σ → Option Err × σ)) (w : σ) :
    errAt (fn :: rest) w 0 = (fn w).1 := rfl

theorem errAt_cons_succ {σ : Type} (fn : σ → Option Err × σ)
    (rest : List (σ → Option Err × σ)) (w : σ) (j : Nat) :
    errAt (fn :: rest) w (j + 1) = errAt rest (fn w).2 j := rfl

theorem runShutdownFuncs_cons_none {σ : Type} (fn : σ → Option Err × σ)
    (rest : List (σ → Option Err × σ)) (w : σ) (h : (fn w).1 = none) :
    runShutdownFuncs (fn :: rest) w = runShutdownFuncs rest (fn w).2 := by
  rcases hf : fn w with ⟨r, w'⟩
  rw [hf] at h
  simp only at h
  subst h
  simp [runShutdownFuncs, hf]

theorem runShutdownFuncs_cons_some {σ : Type} (fn : σ → Option Err × σ)
    (rest : List (σ → Option Err × σ)) (w : σ) (e : Err) (h : (fn w).1 = some e) :
    runShutdownFuncs (fn :: rest) w = (some e, (fn w).2) := by
  rcases hf : fn w with ⟨r, w'⟩
  rw [hf] at h
  simp only at h
  subst h
  simp [runShutdownFuncs, hf]

theorem runShutdownFuncs_first_error {σ : Type} (fns : List (σ → Option Err × σ)) (w : σ)
    (i : Nat) (e : Err) (hprev : ∀ j, j < i → errAt fns w j = none)
    (hi : errAt fns w i = some e) :
    runShutdownFuncs fns w = (some e, stateAfter fns w (i + 1)) := by
  induction fns generalizing w i with
  | nil => simp [errAt] at hi
  | cons fn rest ih =>
    cases i with
    | zero =>
      rw [errAt_cons_zero] at hi
      rw [runShutdownFuncs_cons_some fn rest w e hi]
      rfl
    | succ i =>
      have h0 : (fn w).1 = none := by
        have := hprev 0 (Nat.succ_pos i)
        rwa [errAt_cons_zero] at this
      rw [runShutdownFuncs_cons_none fn rest w h0, stateAfter_cons_succ]
      apply ih
      · intro j hj
        have := hprev (j + 1) (Nat.succ_lt_succ hj)
        rwa [errAt_cons_succ] at this
      · rwa [errAt_cons_succ] at hi

theorem runShutdownFuncs_no_error {σ : Type} (fns : List (σ → Option Err × σ)) (w : σ)
    (hall : ∀ j, j < fns.length → errAt fns w j = none) :
    runShutdownFuncs fns w = (none, stateAfter fns w fns.length) := by
  induction fns generalizing w with
  | nil => rfl
  | cons fn rest ih =>
    have h0 : (fn w).1 = none := by
      have := hall 0 (Nat.succ_pos _)
      rwa [errAt_cons_zero] at this
    rw [runShutdownFuncs_cons_none fn rest w h0, List.length_cons, stateAfter_cons_succ]
    apply ih
    intro j hj
    have := hall (j + 1) (Nat.succ_lt_succ hj)
    rwa [errAt_cons_succ] at this

theorem RunWithSigHandler_result {ω σ : Type} (s : Server ω) (sig : SigArrival)
    (serveErr closeErr : Option Err) (fns : List (σ → Option Err × σ)) (w : σ) :
    (s.RunWithSigHandler sig serveErr closeErr fns w).2
      = (match serveErr with
         | some e =>
           if e ≠ Err.ErrServerClosed then (w, some e)
           else ((runShutdownFuncs fns w).2, (runShutdownFuncs fns w).1)
         | none => ((runShutdownFuncs fns w).2, (runShutdownFuncs fns w).1)) := by
  unfold Server.RunWithSigHandler Server.Run
  cases serveErr with
  | none => rfl
  | some e =>
    by_cases h : e = Err.ErrServerClosed
    · simp [h]
    · simp [h]

/-- C4: when `Run` returned nil or `http.ErrServerClosed`, the shutdown
functions run in the order given; if function `i` is the first to return an
error, the caller's state is the one left by functions `0..i` run in order and
`RunWithSigHandler` returns that error; if none returns an error, all have run
in order and `RunWithSigHandler` returns nil. -/
theorem RunWithSigHandler_callbacks {ω σ : Type} (s : Server ω) (sig : SigArrival)
    (serveErr closeErr : Option Err) (fns : List (σ → Option Err × σ)) (w : σ)
    (hrun : serveErr = none ∨ serveErr = some Err.ErrServerClosed) :
    (∀ (i : Nat) (e : Err), (∀ j, j < i → errAt fns w j = none) → errAt fns w i = some e →
      (s.RunWithSigHandler sig serveErr closeErr fns w).2
        = (stateAfter fns w (i + 1), some e)) ∧
    ((∀ j, j < fns.length → errAt fns w j = none) →
      (s.RunWithSigHandler sig serveErr closeErr fns w).2
        = (stateAfter fns w fns.length, none)) := by
  have hres : (s.RunWithSigHandler sig serveErr closeErr fns w).2
      = ((runShutdownFuncs fns w).2, (runShutdownFuncs fns w).1) := by
    rw [RunWithSigHandler_result]
    rcases hrun with h | h <;> subst h <;> simp
  constructor
  · intro i e hprev hi
    rw [hres, runShutdownFuncs_first_error fns w i e hprev hi]
  · intro hall
    rw [hres, runShutdownFuncs_no_error fns w hall]

/-- Three logging shutdown functions of which the second fails: the log shows
functions 0 and 1, in order, and the error of function 1 is returned. -/
theorem RunWithSigHandler_callbacks_witness :
    ((some Err.ErrServerClosed : Option Err) = none
      ∨ (some Err.ErrServerClosed : Option Err) = some Err.ErrServerClosed) ∧
    ((NewServer [] Svc apiConfig).RunWithSigHandler SigArrival.whileServing
        (some Err.ErrServerClosed) none
        [logged 0 none, logged 1 (some (Err.other "disk")), logged 2 none] []).2
      = ([0, 1], some (Err.other "disk")) :=
  ⟨Or.inr rfl,
    ((RunWithSigHandler_callbacks (NewServer [] Svc apiConfig) SigArrival.whileServing
        (some Err.ErrServerClosed) none
        [logged 0 none, logged 1 (some (Err.other "disk")), logged 2 none] []
        (Or.inr rfl)).1 1 (Err.other "disk")
      (by intro j hj; interval_cases j; rfl) rfl)⟩

theorem RunWithSigHandler_server {ω σ : Type} (s : Server ω) (sig : SigArrival)
    (serveErr closeErr : Option Err) (fns : List (σ → Option Err × σ)) (w : σ) :
    (s.RunWithSigHandler sig serveErr closeErr fns w).1
      = sigShutdown sig SigArrival.afterRun closeErr
          (sigShutdown sig SigArrival.whileServing closeErr
            ((sigShutdown sig SigArrival.beforeRun closeErr s).Run serveErr).1) := by
  unfold Server.RunWithSigHandler Server.Run
  cases serveErr with
  | none => rfl
  | some e =>
    by_cases h : e = Err.ErrServerClosed
    · simp [h]
    · simp [h]

theorem listenCall_ne_shutdown (config : Config) : listenCall config ≠ HttpCall.Shutdown := by
  unfold listenCall
  cases config.InsecureHTTP <;> simp

theorem RunWithSigHandler_listen_once {ω σ : Type} (s : Server ω) (sig : SigArrival)
    (serveErr closeErr : Option Err) (fns : List (σ → Option Err × σ)) (w : σ) :
    (s.RunWithSigHandler sig serveErr closeErr fns w).1.server.calls.count (listenCall s.config)
      = s.server.calls.count (listenCall s.config) + 1 := by
  rw [RunWithSigHandler_server]
  have hne := listenCall_ne_shutdown s.config
  have hne' : ¬ HttpCall.Shutdown = listenCall s.config := fun e => hne e.symm
  cases sig <;>
    simp [sigShutdown, Server.Shutdown, Server.Run, execAll, runSteps, shutdownSteps, Step.exec,
      Server.configureRoutes, List.count_append, List.count_cons, hne']

/-- C5: an error of `Run` other than `http.ErrServerClosed` is returned by
`RunWithSigHandler` as it is, no shutdown function runs and the caller's state
is untouched; when `Run` returned nil or `http.ErrServerClosed`, the shutdown
functions run and the result is theirs, not the error of `Run`; in every case
the listen call is made exactly once. -/
theorem RunWithSigHandler_run_error {ω σ : Type} (s : Server ω) (sig : SigArrival)
    (serveErr closeErr : Option Err) (fns : List (σ → Option Err × σ)) (w : σ) :
    (∀ e : Err, serveErr = some e → e ≠ Err.ErrServerClosed →
      (s.RunWithSigHandler sig serveErr closeErr fns w).2 = (w, some e)) ∧
    ((serveErr = none ∨ serveErr = some Err.ErrServerClosed) →
      (s.RunWithSigHandler sig serveErr closeErr fns w).2
        = ((runShutdownFuncs fns w).2, (runShutdownFuncs fns w).1)) ∧
    (s.RunWithSigHandler sig serveErr closeErr fns w).1.server.calls.count (listenCall s.config)
      = s.server.calls.count (listenCall s.config) + 1 := by
  refine ⟨?_, ?_, RunWithSigHandler_listen_once s sig serveErr closeErr fns w⟩
  · intro e he hne
    subst he
    rw [RunWithSigHandler_result]
    simp [hne]
  · intro hrun
    rw [RunWithSigHandler_result]
    rcases hrun with h | h <;> subst h <;> simp

/-- A bind failure on the server of `main.go`: the error comes back as it is
and the log of the shutdown functions stays empty. -/
theorem RunWithSigHandler_run_error_witness :
    Err.other "address already in use" ≠ Err.ErrServerClosed ∧
    ((NewServer [] Svc apiConfig).RunWithSigHandler SigArrival.never
        (some (Err.other "address already in use")) none
        [logged 0 none, logged 1 none] []).2
      = ([], some (Err.other "address already in use")) :=
  ⟨by decide,
    (RunWithSigHandler_run_error (NewServer [] Svc apiConfig) SigArrival.never
        (some (Err.other "address already in use")) none
        [logged 0 none, logged 1 none] []).1 (Err.other "address already in use") rfl
      (by decide)⟩

/-! ## Repeated `Shutdown` -/

theorem applyOps_shutdown_world {ω σ : Type} (errs : List (Option Err))
    (st : Server ω × σ) :
    (applyOps (errs.map Op.Shutdown) st).2 = st.2 := by
  unfold applyOps
  induction errs generalizing st with
  | nil => rfl
  | cons e rest ih =>
    simp only [List.map_cons, List.foldl_cons]
    rw [ih]
    rfl

theorem applyOps_shutdown_server {ω σ : Type} (e : Option Err) (errs : List (Option Err))
    (s : Server ω) (w : σ) :
    (applyOps ((e :: errs).map Op.Shutdown) (s, w)).1 = afterShutdowns s (errs.length + 1) := by
  unfold applyOps
  induction errs generalizing s e with
  | nil => rfl
  | cons e' rest ih =>
    have step : ∀ (t : Server ω),
        List.foldl (fun acc (op : Op σ) => op.apply acc) (t, w)
            (List.map Op.Shutdown (e :: e' :: rest))
          = List.foldl (fun acc (op : Op σ) => op.apply acc) ((t.Shutdown e).1, w)
            (List.map Op.Shutdown (e' :: rest)) := fun t => rfl
    rw [step, ih]
    simp [afterShutdowns, Server.Shutdown, execAll, shutdownSteps, Step.exec, List.replicate_succ]

theorem applyOps_append {ω σ : Type} (xs ys : List (Op σ)) (st : Server ω × σ) :
    applyOps (xs ++ ys) st = applyOps ys (applyOps xs st) := by
  simp [applyOps, List.foldl_append]

theorem HttpState.Shutdown_Shutdown (x : HttpState) : x.Shutdown.Shutdown = x.Shutdown := by
  simp [HttpState.Shutdown]

theorem HttpState.shutdownTimes_succ (n : Nat) (x : HttpState) :
    HttpState.shutdownTimes (n + 1) x = x.Shutdown := by
  induction n generalizing x with
  | zero => rfl
  | succ n ih =>
    show HttpState.shutdownTimes (n + 1) x.Shutdown = x.Shutdown
    rw [ih, HttpState.Shutdown_Shutdown]

theorem closeRequests_afterShutdowns {ω : Type} (s : Server ω) (n : Nat) :
    closeRequests s.server (afterShutdowns s n).server = n := by
  simp [closeRequests, afterShutdowns, List.count_replicate]

theorem afterShutdowns_Shutdown {ω : Type} (s : Server ω) (e : Option Err) (n : Nat) :
    afterShutdowns (s.Shutdown e).1 n = afterShutdowns s (n + 1) := by
  simp [afterShutdowns, Server.Shutdown, execAll, shutdownSteps, Step.exec, List.replicate_succ]

theorem shutdownAll_eq {ω : Type} (s : Server ω) (e : Option Err) (errs : List (Option Err)) :
    shutdownAll s (e :: errs) = (afterShutdowns s (errs.length + 1), e :: errs) := by
  induction errs generalizing s e with
  | nil => rfl
  | cons e' rest ih =>
    have step : shutdownAll s (e :: e' :: rest)
        = ((shutdownAll (s.Shutdown e).1 (e' :: rest)).1,
            e :: (shutdownAll (s.Shutdown e).1 (e' :: rest)).2) := rfl
    rw [step, ih, afterShutdowns_Shutdown]
    rfl

theorem runShutdownFuncs_logged (a n : Nat) (log : List Nat) :
    runShutdownFuncs ((List.range' a n).map (fun i => logged i none)) log
      = (none, log ++ List.range' a n) := by
  induction n generalizing a log with
  | zero => simp [runShutdownFuncs]
  | succ n ih =>
    have e : List.range' a (n + 1) = a :: List.range' (a + 1) n := by
      simp [List.range'_succ]
    rw [e, List.map_cons, runShutdownFuncs_cons_none _ _ _ rfl, ih]
    simp [logged]

theorem runShutdownFuncs_loggedAll (n : Nat) :
    runShutdownFuncs (loggedAll n) [] = (none, List.range n) := by
  unfold loggedAll
  rw [List.range_eq_range', runShutdownFuncs_logged]
  simp

theorem applyOps_around {ω σ : Type} (s : Server ω) (pre post : List (Option Err))
    (sig : SigArrival) (serveErr closeErr : Option Err) (fns : List (σ → Option Err × σ))
    (w : σ) :
    (applyOps (pre.map Op.Shutdown
        ++ [Op.RunWithSigHandler sig serveErr closeErr fns]
        ++ post.map Op.Shutdown) (s, w)).2
      = (s.RunWithSigHandler sig serveErr closeErr fns w).2.1 := by
  rw [applyOps_append, applyOps_append, applyOps_shutdown_world]
  have hw : (applyOps (pre.map Op.Shutdown) (s, w)).2 = w := applyOps_shutdown_world pre (s, w)
  rcases hp : applyOps (pre.map (Op.Shutdown : Option Err → Op σ)) (s, w) with ⟨s', w'⟩
  rw [hp] at hw
  simp only at hw
  subst hw
  show ((s'.RunWithSigHandler sig serveErr closeErr fns w').2.1) = _
  rw [RunWithSigHandler_result, RunWithSigHandler_result]

/-- C9: `Shutdown` is idempotent. For every server and every `N ≥ 1`, `N`
calls of `Shutdown` all return and leave the server as one call does: the
healthy flag is false, every field other than the record of calls is the same,
and the `http.Server`, which has received `N` close requests, is in the state
one request leaves it in, with the listener closed, and closed at most once.
`Shutdown` runs no shutdown function: the caller's state after any number of
`Shutdown` calls around a `RunWithSigHandler` is the one the single pass of
`RunWithSigHandler` leaves, so after a successful shutdown in which no
function fails every function has run exactly once. -/
theorem Shutdown_idempotent {ω σ : Type} (s : Server ω) (e : Option Err)
    (errs pre post : List (Option Err)) (x : HttpState) (sig : SigArrival)
    (serveErr closeErr : Option Err) (fns : List (σ → Option Err × σ)) (w : σ) (n : Nat) :
    shutdownAll s (e :: errs) = (afterShutdowns s (errs.length + 1), e :: errs) ∧
    (applyOps ((e :: errs).map Op.Shutdown) (s, w)).1 = afterShutdowns s (errs.length + 1) ∧
    (s.Shutdown e).1 = afterShutdowns s 1 ∧
    (afterShutdowns s (errs.length + 1)).healthy = false ∧
    { afterShutdowns s (errs.length + 1) with server := (afterShutdowns s 1).server }
      = afterShutdowns s 1 ∧
    closeRequests s.server (afterShutdowns s (errs.length + 1)).server = errs.length + 1 ∧
    httpStateAfter x s (afterShutdowns s (errs.length + 1))
      = httpStateAfter x s (afterShutdowns s 1) ∧
    httpStateAfter x s (afterShutdowns s 1) = x.Shutdown ∧
    (httpStateAfter x s (afterShutdowns s (errs.length + 1))).listenerOpen = false ∧
    (httpStateAfter x s (afterShutdowns s (errs.length + 1))).inShutdown = true ∧
    (httpStateAfter x s (afterShutdowns s (errs.length + 1))).listenerCloses
      = x.listenerCloses + (if x.listenerOpen then 1 else 0) ∧
    (applyOps ((e :: errs).map Op.Shutdown) (s, w)).2 = w ∧
    (applyOps (pre.map Op.Shutdown
        ++ [Op.RunWithSigHandler sig serveErr closeErr fns]
        ++ post.map Op.Shutdown) (s, w)).2
      = (s.RunWithSigHandler sig serveErr closeErr fns w).2.1 ∧
    ((serveErr = none ∨ serveErr = some Err.ErrServerClosed) →
      (∀ j, j < fns.length → errAt fns w j = none) →
      (applyOps (pre.map Op.Shutdown
          ++ [Op.RunWithSigHandler sig serveErr closeErr fns]
          ++ post.map Op.Shutdown) (s, w)).2
        = stateAfter fns w fns.length) ∧
    ((serveErr = none ∨ serveErr = some Err.ErrServerClosed) →
      (applyOps (pre.map Op.Shutdown
          ++ [Op.RunWithSigHandler sig serveErr closeErr (loggedAll n)]
          ++ post.map Op.Shutdown) (s, ([] : List Nat))).2
        = List.range n ∧
      ∀ i, i < n →
        (applyOps (pre.map Op.Shutdown
            ++ [Op.RunWithSigHandler sig serveErr closeErr (loggedAll n)]
            ++ post.map Op.Shutdown) (s, ([] : List Nat))).2.count i = 1) := by
  have hN : httpStateAfter x s (afterShutdowns s (errs.length + 1)) = x.Shutdown := by
    unfold httpStateAfter
    rw [closeRequests_afterShutdowns, HttpState.shutdownTimes_succ]
  have h1 : httpStateAfter x s (afterShutdowns s 1) = x.Shutdown := by
    unfold httpStateAfter
    rw [closeRequests_afterShutdowns]
    rfl
  have hloop : ∀ {τ : Type} (gs : List (τ → Option Err × τ)) (v : τ),
      (serveErr = none ∨ serveErr = some Err.ErrServerClosed) →
      (s.RunWithSigHandler sig serveErr closeErr gs v).2.1 = (runShutdownFuncs gs v).2 := by
    intro τ gs v hrun
    rw [RunWithSigHandler_result]
    rcases hrun with h | h <;> subst h <;> simp
  refine ⟨shutdownAll_eq s e errs, applyOps_shutdown_server e errs s w, rfl, rfl, rfl,
    closeRequests_afterShutdowns s _, ?_, h1,
    ?_, ?_, ?_, applyOps_shutdown_world (e :: errs) (s, w),
    applyOps_around s pre post sig serveErr closeErr fns w, ?_, ?_⟩
  · rw [hN, h1]
  · rw [hN]; rfl
  · rw [hN]; rfl
  · rw [hN]; rfl
  · intro hrun hok
    rw [applyOps_around, hloop fns w hrun, runShutdownFuncs_no_error fns w hok]
  · intro hrun
    have hlog : (applyOps (pre.map Op.Shutdown
          ++ [Op.RunWithSigHandler sig serveErr closeErr (loggedAll n)]
          ++ post.map Op.Shutdown) (s, ([] : List Nat))).2 = List.range n := by
      rw [applyOps_around, hloop (loggedAll n) [] hrun, runShutdownFuncs_loggedAll]
    refine ⟨hlog, ?_⟩
    intro i hi
    rw [hlog]
    exact List.count_eq_one_of_mem (List.nodup_range n) (List.mem_range.mpr hi)

/-- Three `Shutdown` calls on the server of `main.go`, one before
`RunWithSigHandler`, one from the signal and one after: the two logging
shutdown functions have each run once. -/
theorem Shutdown_idempotent_witness :
    ((some Err.ErrServerClosed : Option Err) = none
      ∨ (some Err.ErrServerClosed : Option Err) = some Err.ErrServerClosed) ∧
    (applyOps ([none].map Op.Shutdown
        ++ [Op.RunWithSigHandler SigArrival.whileServing (some Err.ErrServerClosed) none
              (loggedAll 2)]
        ++ [none].map Op.Shutdown) (NewServer [] Svc apiConfig, ([] : List Nat))).2
      = List.range 2 :=
  ⟨Or.inr rfl,
    ((@Shutdown_idempotent Unit Unit (NewServer [] Svc apiConfig) none [none] [none] [none]
        ⟨true, false, 0⟩ SigArrival.whileServing (some Err.ErrServerClosed) none [] () 2
      ).2.2.2.2.2.2.2.2.2.2.2.2.2.2 (Or.inr rfl)).1⟩

/-! ## Registration of the business route -/

theorem Op.apply_routes {ω σ : Type} (op : Op σ) (s : Server ω) (w : σ) :
    (op.apply (s, w)).1.Routes
      = (if op.configures then s.configureRoutes.Routes else s.Routes) := by
  cases op with
  | ConfigureRoutes => rfl
  | Run serveErr => rfl
  | Shutdown closeErr => rfl
  | RunWithSigHandler sig serveErr closeErr fns =>
    show (s.RunWithSigHandler sig serveErr closeErr fns w).1.Routes = _
    rw [RunWithSigHandler_server]
    cases sig <;> rfl

theorem configureRoutes_base {ω : Type} (s : Server ω) :
    s.configureRoutes.Routes.getUserByUserIDBase = s.Routes.getUserByUserIDBase := rfl

theorem configureRoutes_businessCount {ω : Type} (s : Server ω)
    (hb : s.Routes.getUserByUserIDBase = "") :
    businessCount s.configureRoutes.Routes = businessCount s.Routes + 1 := by
  unfold businessCount Server.configureRoutes Routes.GET
  simp only [hb, List.filter_append, List.length_append]
  congr 1

theorem applyOps_businessCount {ω σ : Type} (ops : List (Op σ)) (s : Server ω) (w : σ)
    (hb : s.Routes.getUserByUserIDBase = "") :
    businessCount (applyOps ops (s, w)).1.Routes
      = businessCount s.Routes + (ops.filter Op.configures).length := by
  unfold applyOps
  induction ops generalizing s w with
  | nil => rfl
  | cons op rest ih =>
    simp only [List.foldl_cons]
    rcases hst : op.apply (s, w) with ⟨s', w'⟩
    have hr : s'.Routes = (if op.configures then s.configureRoutes.Routes else s.Routes) := by
      have := Op.apply_routes op s w
      rwa [hst] at this
    cases hc : op.configures with
    | false =>
      rw [hc] at hr
      simp only [Bool.false_eq_true, if_false] at hr
      rw [ih s' w' (by rw [hr]; exact hb), hr]
      simp [List.filter_cons, hc]
    | true =>
      rw [hc] at hr
      simp only [if_true] at hr
      rw [ih s' w' (by rw [hr]; exact hb), hr, configureRoutes_businessCount s hb]
      simp [List.filter_cons, hc]
      omega

theorem NewServer_base {ω : Type} (pprofEndpoints : List (String × String))
    (svc : Service ω) (config : Config) :
    (NewServer pprofEndpoints svc config).Routes.getUserByUserIDBase = "" := by
  unfold NewServer
  cases config.Debug <;> cases config.WellKnownDisabled <;>
    simp [Routes.GET, Routes.configureWellKnown, initializeRoutes, pprofRegister_base]

theorem NewServer_businessCount {ω : Type} (pprofEndpoints : List (String × String))
    (svc : Service ω) (config : Config) :
    businessCount (NewServer pprofEndpoints svc config).Routes = 0 := by
  unfold businessCount
  rw [List.length_eq_zero, List.filter_eq_nil_iff]
  intro e m
  have hnone := NewServer_lookup pprofEndpoints svc config businessRoute.method
    businessRoute.path (by decide)
  have hfind : ((NewServer pprofEndpoints svc config).Routes.routes.find?
      (fun e => e.method == businessRoute.method && e.path == businessRoute.path)) = none := by
    have h2 : (NewServer pprofEndpoints svc config).Routes.lookup businessRoute.method
        businessRoute.path = none := by
      rw [hnone]
      cases config.WellKnownDisabled <;> decide
    unfold Routes.lookup at h2
    simpa using h2
  rw [List.find?_eq_none] at hfind
  exact hfind e m

/-- C10 (as the code has it): `NewServer` registers no business binding;
every call of `ConfigureRoutes`, `Run` or `RunWithSigHandler` translates the
path and registers `GET /user/:user_id` once more, `Shutdown` registers
nothing; after a sequence of calls the table holds as many registrations of
the binding as the sequence has such calls. -/
theorem business_route_registrations {ω σ : Type} (pprofEndpoints : List (String × String))
    (svc : Service ω) (config : Config) (ops : List (Op σ)) (w : σ) :
    businessRoute = ⟨"GET", "/user/:user_id", Handler.getUserByUserID⟩ ∧
    businessCount (NewServer pprofEndpoints svc config).Routes = 0 ∧
    businessCount (applyOps ops (NewServer pprofEndpoints svc config, w)).1.Routes
      = (ops.filter Op.configures).length := by
  refine ⟨by decide, NewServer_businessCount pprofEndpoints svc config, ?_⟩
  rw [applyOps_businessCount ops _ w (NewServer_base pprofEndpoints svc config),
    NewServer_businessCount]
  simp

/-- C10 fails as stated: on the server of `main.go` no call leaves the
business binding unregistered, and `ConfigureRoutes` followed by `Run`
registers it twice. -/
theorem business_route_not_once :
    businessCount
      (applyOps ([] : List (Op Unit)) (NewServer [] Svc apiConfig, ())).1.Routes = 0 ∧
    businessCount
      (applyOps [(Op.ConfigureRoutes : Op Unit), Op.Run none]
        (NewServer [] Svc apiConfig, ())).1.Routes = 2 := by
  refine ⟨by rfl, by rfl⟩

end Restapi
